import Mathlib

/-!
Verification of the heartbeat liveness monitor (`node/heartbeat/monitor.go`)
of the elrond-go repository, against its natural-language specification.

Modelling conventions:
* Go `time.Time` is modelled as `Int` nanoseconds since the Unix epoch
  (`t.UnixNano()` and `time.Unix(0, ns)` are then the identity), and Go
  `time.Duration` as `Int` nanoseconds; `t1.Sub(t2)` is subtraction.
* Go byte strings (public keys) are modelled as `List (Fin 256)`;
  `bytes.Equal` is equality of such lists.
* The Go `map[string]*heartbeatMessageInfo` is modelled as an association
  list with unique keys; the list order stands for the (arbitrary) map
  iteration order.  `m[k] = v` is update-in-place-or-append.
* Fallible collaborator calls return `Option`/`Except`; asynchronous
  (`go ...`) effects are modelled by applying their state update, and
  calls handed to the persistence collaborator are recorded in an
  explicit effects log.
* `int64(d.Seconds())` (used by `GetHeartbeats`) is modelled as
  truncating division of the nanosecond count by 10^9.
-/

namespace heartbeat

/-- Model of Go `time.Time`, as nanoseconds since the Unix epoch. -/
abbrev Time := Int

/-- Model of Go `time.Duration`, as nanoseconds. -/
abbrev Duration := Int

/-- A public key / byte string (`[]byte`, `string` in Go). -/
abbrev PubKey := List (Fin 256)

/-- Model of `int64(d.Seconds())` in Go: whole seconds of a duration, truncated
toward zero. -/
def secondsTrunc (d : Duration) : Int := d.tdiv 1000000000

/-- The exported, persisted form of a record (`HeartbeatDTO` in
`heartbeat.go`): all times/durations already flattened to nanosecond
integers, exactly as `convertToExportedStruct` writes them. -/
structure HeartbeatDTO where
  IsActive : Bool
  ReceivedShardID : Nat
  ComputedShardID : Nat
  VersionNumber : String
  NodeDisplayName : String
  PeerType : String
  TimeStamp : Int
  MaxInactiveTime : Int
  TotalUpTime : Int
  TotalDownTime : Int
  LastUptimeDowntime : Int
  GenesisTime : Int
deriving DecidableEq, Repr

/-- One peer's liveness record (`heartbeatMessageInfo`).  The fields are
the ones `monitor.go` reads and writes; the Go struct's mutex and
`getTimeHandler` have no data content and are omitted. -/
structure heartbeatMessageInfo where
  maxDurationPeerUnresponsive : Duration
  maxInactiveTime : Duration
  isActive : Bool
  receivedShardID : Nat
  computedShardID : Nat
  versionNumber : String
  nodeDisplayName : String
  peerType : String
  timeStamp : Time
  totalUpTime : Duration
  totalDownTime : Duration
  lastUptimeDowntime : Time
  genesisTime : Time
deriving DecidableEq, Repr

/-- Embedding of `Monitor.convertToExportedStruct` (monitor.go:387-407). -/
def convertToExportedStruct (v : heartbeatMessageInfo) : HeartbeatDTO :=
  { IsActive := v.isActive
    ReceivedShardID := v.receivedShardID
    ComputedShardID := v.computedShardID
    VersionNumber := v.versionNumber
    NodeDisplayName := v.nodeDisplayName
    PeerType := v.peerType
    TimeStamp := v.timeStamp
    MaxInactiveTime := v.maxInactiveTime
    TotalUpTime := v.totalUpTime
    TotalDownTime := v.totalDownTime
    LastUptimeDowntime := v.lastUptimeDowntime
    GenesisTime := v.genesisTime }

/-- Embedding of `Monitor.convertFromExportedStruct` (monitor.go:409-428). -/
def convertFromExportedStruct (hbDTO : HeartbeatDTO) (maxDuration : Duration) :
    heartbeatMessageInfo :=
  { maxDurationPeerUnresponsive := maxDuration
    isActive := hbDTO.IsActive
    receivedShardID := hbDTO.ReceivedShardID
    computedShardID := hbDTO.ComputedShardID
    versionNumber := hbDTO.VersionNumber
    nodeDisplayName := hbDTO.NodeDisplayName
    peerType := hbDTO.PeerType
    maxInactiveTime := hbDTO.MaxInactiveTime
    timeStamp := hbDTO.TimeStamp
    totalUpTime := hbDTO.TotalUpTime
    totalDownTime := hbDTO.TotalDownTime
    lastUptimeDowntime := hbDTO.LastUptimeDowntime
    genesisTime := hbDTO.GenesisTime }

/-! Constants of the external `core` package (values opaque to all claims). -/

def ObserverList : String := "observer"
def EligibleList : String := "eligible"
def HeartbeatTopic : String := "heartbeat"
def MetricLiveValidatorNodes : String := "erd_live_validator_nodes"
def MetricConnectedNodes : String := "erd_connected_nodes"

/-- The peer-role resolver collaborator (`PeerTypeProviderHandler`):
`ComputeForPubKey(pubkey)` resolving role and shard, and
`ComputeForPubKey(pubkey, shardID)` resolving only the role.  A `none`
result models an error return. -/
structure PeerTypeProvider where
  computeForPubKey : PubKey → Option (String × Nat)
  computeForPubKeyShard : PubKey → Nat → Option String

/-- Embedding of `Monitor.computePeerTypeAndShardID` (monitor.go:299-307): resolver
failure degrades to the default observer role and shard 0. -/
def computePeerTypeAndShardID (ptp : PeerTypeProvider) (pubkey : PubKey) :
    String × Nat :=
  match ptp.computeForPubKey pubkey with
  | none => (ObserverList, 0)
  | some (peerType, shardID) => (peerType, shardID)

/-- Embedding of `Monitor.computePeerType` (monitor.go:309-317). -/
def computePeerType (ptp : PeerTypeProvider) (pubkey : PubKey) (shardID : Nat) :
    String :=
  match ptp.computeForPubKeyShard pubkey shardID with
  | none => ObserverList
  | some peerType => peerType

/-- Modelled from the spec: the `maxDuration` helper of the absent record
file (`heartbeatMessageInfo.go`), called by `loadHbmiFromStorer` as
`maxDuration(0, d)`; per the spec the elapsed duration is "clipped at 0",
i.e. the larger of the two durations is taken. -/
def maxDuration (first second : Duration) : Duration := max first second

/-- Modelled from the spec (§4.1): the record constructor
`newHeartbeatMessageInfo` of the absent record file.  A fresh record is
`Inactive`, with zero accumulated up/down time; its time fields are
back-filled from `genesisTime` (§3: the up/down total "tracks
now − genesisTime once creation has back-filled from `genesisTime`",
and the first evaluation must be deterministic). -/
def newHeartbeatMessageInfo (maxDurationPeerUnresponsive : Duration)
    (peerType : String) (genesisTime : Time) : heartbeatMessageInfo :=
  { maxDurationPeerUnresponsive := maxDurationPeerUnresponsive
    maxInactiveTime := maxDurationPeerUnresponsive
    isActive := false
    receivedShardID := 0
    computedShardID := 0
    versionNumber := ""
    nodeDisplayName := ""
    peerType := peerType
    timeStamp := genesisTime
    totalUpTime := 0
    totalDownTime := 0
    lastUptimeDowntime := genesisTime
    genesisTime := genesisTime }

/-- Modelled from the spec (§4.1, transition 2): `ComputeActive` /
`Evaluate(now)` of the absent record file, the sole accounting
transition: the new activity flag is `now − timeStamp <` the configured
unresponsiveness threshold (the field `maxDurationPeerUnresponsive`,
which the spec's data model calls the configured `maxInactiveTime`);
`max(0, now − lastUptimeDowntime)` is credited to up- or downtime
according to the *previous* flag; the watermark advances to `now`. -/
def ComputeActive (v : heartbeatMessageInfo) (now : Time) : heartbeatMessageInfo :=
  let newIsActive := decide (now - v.timeStamp < v.maxDurationPeerUnresponsive)
  let delta := maxDuration 0 (now - v.lastUptimeDowntime)
  let v1 :=
    if v.isActive then { v with totalUpTime := v.totalUpTime + delta }
    else { v with totalDownTime := v.totalDownTime + delta }
  { v1 with isActive := newIsActive, lastUptimeDowntime := now }

/-- Accessor `GetIsActive` of the record (trivial accessor used by
`computeAllHeartbeatMessages`). -/
def GetIsActive (v : heartbeatMessageInfo) : Bool := v.isActive

/-- Modelled from the spec: `GetIsValidator` of the absent record file —
whether the resolved role marks the peer a validator (§4.4 "active
records whose role marks them a validator"): the eligible-validator
role, as opposed to the observer default. -/
def GetIsValidator (v : heartbeatMessageInfo) : Bool :=
  v.peerType == EligibleList

/-- Modelled from the spec (§4.1, transition 1): `HeartbeatReceived` of
the absent record file — unconditional transition to `Active`; sets
`timeStamp = now` and overwrites the shard ids, version, display name
and role; does not touch the up/down totals. -/
def HeartbeatReceived (v : heartbeatMessageInfo) (now : Time)
    (computedShardID receivedShardID : Nat)
    (version nodeDisplayName peerType : String) : heartbeatMessageInfo :=
  { v with
    isActive := true
    timeStamp := now
    computedShardID := computedShardID
    receivedShardID := receivedShardID
    versionNumber := version
    nodeDisplayName := nodeDisplayName
    peerType := peerType }

/-- The persisted contents of the heartbeat storer
(`HeartbeatStorageHandler`), read side: records per public key
(`LoadHbmiDTO`; a missing entry models both "not found" and a load
error, which `monitor.go` treats alike), the persisted known-peers list
(`LoadKeys`), and flags for the fallibility of `LoadKeys` and
`UpdateGenesisTime`. -/
structure StorerDB where
  hbmiDTOs : List (PubKey × HeartbeatDTO)
  keys : List PubKey
  loadKeysOk : Bool
  updateGenesisTimeOk : Bool
deriving DecidableEq, Repr

/-- Embedding of `storer.LoadHbmiDTO(pubKey)`. -/
def StorerDB.loadHbmiDTO (db : StorerDB) (pubKey : PubKey) : Option HeartbeatDTO :=
  (db.hbmiDTOs.find? (fun p => p.1 == pubKey)).map Prod.snd

/-- Log of the calls the Monitor hands to its write-side collaborators
(the storer's `SavePubkeyData` / `SaveKeys` / `UpdateGenesisTime` and the
app-status handler's `SetUInt64Value`), in call order. -/
structure Effects where
  savedRecords : List (PubKey × HeartbeatDTO)
  savedKeysLog : List (List PubKey)
  metrics : List (String × Nat)
  genesisTimeSet : List Time
deriving DecidableEq, Repr

/-- The `Monitor` aggregate state (monitor.go:23-39): the association
list `heartbeatMessages` models the Go map (unique keys, list order =
iteration order); the immutable collaborators are passed to each
operation separately so the state stays plain data. -/
structure Monitor where
  maxDurationPeerUnresponsive : Duration
  heartbeatMessages : List (PubKey × heartbeatMessageInfo)
  pubKeysMap : List (Nat × List PubKey)
  fullPeersSlice : List PubKey
  genesisTime : Time
deriving DecidableEq, Repr

/-- Association-list lookup (the Go map read `m[k]`). -/
def lookupMap (l : List (PubKey × heartbeatMessageInfo)) (pubKey : PubKey) :
    Option heartbeatMessageInfo :=
  (l.find? (fun p => p.1 == pubKey)).map Prod.snd

/-- Lookup in the `heartbeatMessages` map. -/
def Monitor.lookup (m : Monitor) (pubKey : PubKey) : Option heartbeatMessageInfo :=
  lookupMap m.heartbeatMessages pubKey

/-- The Go map assignment `m.heartbeatMessages[k] = v`: update in place if
the key is present, else append. -/
def mapInsert (l : List (PubKey × heartbeatMessageInfo)) (k : PubKey)
    (v : heartbeatMessageInfo) : List (PubKey × heartbeatMessageInfo) :=
  match l with
  | [] => [(k, v)]
  | (k', v') :: rest =>
    if k' == k then (k', v) :: rest else (k', v') :: mapInsert rest k v

/-- Embedding of `Monitor.loadHbmiFromStorer` (monitor.go:182-204): load the persisted
DTO, rebuild the record, catch up the accounting since the persisted
watermark, advance the watermark to now, and recompute role. -/
def loadHbmiFromStorer (m : Monitor) (ptp : PeerTypeProvider) (db : StorerDB)
    (now : Time) (pubKey : PubKey) : Option heartbeatMessageInfo :=
  match db.loadHbmiDTO pubKey with
  | none => none
  | some hbmiDTO =>
    let receivedHbmi := convertFromExportedStruct hbmiDTO m.maxDurationPeerUnresponsive
    let crtTime := now
    let crtDuration := maxDuration 0 (crtTime - receivedHbmi.lastUptimeDowntime)
    let receivedHbmi :=
      if receivedHbmi.isActive then
        { receivedHbmi with
          totalUpTime := receivedHbmi.totalUpTime + crtDuration
          timeStamp := crtTime }
      else
        { receivedHbmi with totalDownTime := receivedHbmi.totalDownTime + crtDuration }
    some { receivedHbmi with
      lastUptimeDowntime := crtTime
      genesisTime := m.genesisTime
      peerType := computePeerType ptp pubKey receivedHbmi.computedShardID }

/-- Errors of the heartbeat package (`errors.go`) together with
collaborator-produced errors, which `monitor.go` only passes through
verbatim; the latter are modelled as opaque tagged strings. -/
inductive HBError where
  | ErrNilMessage
  | ErrNilDataToProcess
  | ErrNilMarshalizer
  | ErrNilPeerTypeProvider
  | ErrEmptyPublicKeysMap
  | ErrNilMessageHandler
  | ErrNilHeartbeatStorer
  | ErrNilTimer
  | ErrNilAntifloodHandler
  | collaborator (s : String)
deriving DecidableEq, Repr

/-- A transport-level message (`p2p.MessageP2P`): its
`IsInterfaceNil()` answer and its `Data()` payload (`none` models a nil
payload).  A nil interface value itself is `Option.none` at use sites. -/
structure MessageP2P where
  isInterfaceNil : Bool
  data : Option (List (Fin 256))
deriving DecidableEq, Repr

/-- The admission gate (`P2PAntifloodHandler`): `CanProcessMessage` and
`CanProcessMessageOnTopic`; `some e` models a rejection with error `e`. -/
structure P2PAntifloodHandler where
  canProcessMessage : MessageP2P → String → Option HBError
  canProcessMessageOnTopic : String → String → Option HBError

/-- A decoded heartbeat payload (`Heartbeat`). -/
structure Heartbeat where
  Pubkey : PubKey
  ShardID : Nat
  VersionNumber : String
  NodeDisplayName : String
deriving DecidableEq, Repr

/-- The message decoder (`MessageHandler`):
`CreateHeartbeatFromP2PMessage`. -/
structure MessageHandler where
  createHeartbeatFromP2PMessage : MessageP2P → Except HBError Heartbeat

/-- Embedding of `Monitor.ProcessReceivedMessage` (monitor.go:218-246).  The
synchronous call only validates; on success it schedules the state
update asynchronously (`go addHeartbeatMessageToMap`,
`go computeAllHeartbeatMessages`) and returns nil at once.  It mutates
no monitor state itself, so it returns the unchanged monitor together
with the list of scheduled heartbeat updates. -/
def ProcessReceivedMessage (m : Monitor) (antifloodHandler : P2PAntifloodHandler)
    (messageHandler : MessageHandler) (message : Option MessageP2P)
    (fromConnectedPeer : String) :
    Except HBError Unit × Monitor × List Heartbeat :=
  match message with
  | none => (.error .ErrNilMessage, m, [])
  | some msg =>
    if msg.isInterfaceNil then (.error .ErrNilMessage, m, [])
    else if msg.data.isNone then (.error .ErrNilDataToProcess, m, [])
    else
      match antifloodHandler.canProcessMessage msg fromConnectedPeer with
      | some err => (.error err, m, [])
      | none =>
        match antifloodHandler.canProcessMessageOnTopic fromConnectedPeer HeartbeatTopic with
        | some err => (.error err, m, [])
        | none =>
          match messageHandler.createHeartbeatFromP2PMessage msg with
          | .error err => (.error err, m, [])
          | .ok hbRecv => (.ok (), m, [hbRecv])

/-- Embedding of `Monitor.SaveMultipleHeartbeatMessageInfos` (monitor.go:148-159):
hand every record of the given map to `storer.SavePubkeyData` in its
exported form (failures are only logged, so the effect is the appended
log of save calls). -/
def SaveMultipleHeartbeatMessageInfos (eff : Effects)
    (pubKeysToSave : List (PubKey × heartbeatMessageInfo)) : Effects :=
  { eff with savedRecords :=
      eff.savedRecords ++
        pubKeysToSave.map (fun p => (p.1, convertToExportedStruct p.2)) }

/-- The update `pubKeysMapCopy[shardId] = append(pubKeysMapCopy[shardId], pubkey)`
on the shard-to-keys map. -/
def shardMapAppend (l : List (Nat × List PubKey)) (shardId : Nat) (pk : PubKey) :
    List (Nat × List PubKey) :=
  match l with
  | [] => [(shardId, [pk])]
  | (s, pks) :: rest =>
    if s == shardId then (s, pks ++ [pk]) :: rest
    else (s, pks) :: shardMapAppend rest shardId pk

/-- The mutable state threaded through initialization
(monitor.go:106-145): the records map under construction, the fresh
records queued for asynchronous persistence, and the copy of the
role-assignment map. -/
structure InitState where
  heartbeatMessages : List (PubKey × heartbeatMessageInfo)
  pubKeysToSave : List (PubKey × heartbeatMessageInfo)
  pubKeysMapCopy : List (Nat × List PubKey)
deriving DecidableEq, Repr

/-- Embedding of `Monitor.initializeHeartBeatForPK` (monitor.go:124-145): try to load
the persisted record; on miss create a fresh one (role/shard via the
resolver) and queue it for persistence; either way install the record in
the map and register the key under its shard.  (`mon` supplies the
configuration fields `maxDurationPeerUnresponsive` / `genesisTime`; the
model's record constructor cannot fail, so neither can this step.) -/
def initializeHeartBeatForPK (mon : Monitor) (ptp : PeerTypeProvider)
    (db : StorerDB) (now : Time) (pubkey : PubKey) (shardId : Nat)
    (st : InitState) : InitState :=
  match loadHbmiFromStorer mon ptp db now pubkey with
  | some hbmi =>
    { st with
      heartbeatMessages := mapInsert st.heartbeatMessages pubkey hbmi
      pubKeysMapCopy := shardMapAppend st.pubKeysMapCopy shardId pubkey }
  | none =>
    let ts := computePeerTypeAndShardID ptp pubkey
    let hbmi := newHeartbeatMessageInfo mon.maxDurationPeerUnresponsive ts.1
      mon.genesisTime
    let hbmi := { hbmi with genesisTime := mon.genesisTime, computedShardID := ts.2 }
    { heartbeatMessages := mapInsert st.heartbeatMessages pubkey hbmi
      pubKeysToSave := mapInsert st.pubKeysToSave pubkey hbmi
      pubKeysMapCopy := shardMapAppend st.pubKeysMapCopy shardId pubkey }

/-- Embedding of `Monitor.initializeHeartbeatMessagesInfo` (monitor.go:106-122)
without its final asynchronous save: the double loop over the supplied
role assignment. -/
def initializeHeartbeatMessagesInfo (mon : Monitor) (ptp : PeerTypeProvider)
    (db : StorerDB) (now : Time) (pubKeysMap : List (Nat × List PubKey)) :
    InitState :=
  pubKeysMap.foldl
    (fun st p => p.2.foldl
      (fun st pubkey => initializeHeartBeatForPK mon ptp db now pubkey p.1 st) st)
    { heartbeatMessages := [], pubKeysToSave := [], pubKeysMapCopy := [] }

/-- The per-key body of the `loadRestOfPubKeysFromStorage` loop
(monitor.go:167-177): keys already tracked are skipped; a failing record
load is skipped. -/
def loadRestStep (ptp : PeerTypeProvider) (db : StorerDB) (now : Time)
    (acc : Monitor) (pubKey : PubKey) : Monitor :=
  match acc.lookup pubKey with
  | some _ => acc
  | none =>
    match loadHbmiFromStorer acc ptp db now pubKey with
    | none => acc
    | some hbmi =>
      { acc with heartbeatMessages := mapInsert acc.heartbeatMessages pubKey hbmi }

/-- Embedding of `Monitor.loadRestOfPubKeysFromStorage` (monitor.go:161-180): walk the
persisted known-peers list; for every key not already tracked, load its
persisted record, skipping keys whose load fails.  A `LoadKeys` failure
leaves the monitor unchanged (`NewMonitor` only logs it). -/
def loadRestOfPubKeysFromStorage (mon : Monitor) (ptp : PeerTypeProvider)
    (db : StorerDB) (now : Time) : Monitor :=
  if db.loadKeysOk then db.keys.foldl (loadRestStep ptp db now) mon
  else mon

/-- Embedding of `NewMonitor` (monitor.go:42-104).  A nil collaborator is `none`
(`check.IfNil`); `now` stands for `timer.Now()` during construction.
On success the constructed monitor is returned together with the
effects log: the initial `UpdateGenesisTime` call and the (asynchronous)
persistence of the freshly created records. -/
def NewMonitor (marshalizer : Option Unit)
    (maxDurationPeerUnresponsive : Duration)
    (pubKeysMap : List (Nat × List PubKey)) (genesisTime : Time)
    (messageHandler : Option MessageHandler) (storer : Option StorerDB)
    (peerTypeProvider : Option PeerTypeProvider) (timer : Option Unit)
    (antifloodHandler : Option P2PAntifloodHandler) (now : Time) :
    Except HBError (Monitor × Effects) :=
  match marshalizer with
  | none => .error .ErrNilMarshalizer
  | some _ =>
  match peerTypeProvider with
  | none => .error .ErrNilPeerTypeProvider
  | some ptp =>
  if pubKeysMap.length == 0 then .error .ErrEmptyPublicKeysMap
  else
  match messageHandler with
  | none => .error .ErrNilMessageHandler
  | some _ =>
  match storer with
  | none => .error .ErrNilHeartbeatStorer
  | some db =>
  match timer with
  | none => .error .ErrNilTimer
  | some _ =>
  match antifloodHandler with
  | none => .error .ErrNilAntifloodHandler
  | some _ =>
  let mon : Monitor :=
    { maxDurationPeerUnresponsive := maxDurationPeerUnresponsive
      heartbeatMessages := []
      pubKeysMap := []
      fullPeersSlice := []
      genesisTime := genesisTime }
  if db.updateGenesisTimeOk then
    let eff : Effects :=
      { savedRecords := [], savedKeysLog := [], metrics := []
        genesisTimeSet := [genesisTime] }
    let st := initializeHeartbeatMessagesInfo mon ptp db now pubKeysMap
    let eff := SaveMultipleHeartbeatMessageInfos eff st.pubKeysToSave
    let mon := { mon with
      heartbeatMessages := st.heartbeatMessages
      pubKeysMap := st.pubKeysMapCopy }
    .ok (loadRestOfPubKeysFromStorage mon ptp db now, eff)
  else .error (.collaborator "UpdateGenesisTime")

/-- The loop body of `computeAllHeartbeatMessages` (monitor.go:324-340),
threading the rebuilt map, the connected-nodes counter, the
active-validators counter and the Active → Inactive transitioned
subset. -/
def computeAllStep (now : Time)
    (acc : List (PubKey × heartbeatMessageInfo) × Nat × Nat ×
      List (PubKey × heartbeatMessageInfo))
    (p : PubKey × heartbeatMessageInfo) :
    List (PubKey × heartbeatMessageInfo) × Nat × Nat ×
      List (PubKey × heartbeatMessageInfo) :=
  let previousActive := GetIsActive p.2
  let v := ComputeActive p.2 now
  let isActive := GetIsActive v
  let counterConnectedNodes := if isActive then acc.2.1 + 1 else acc.2.1
  let counterActiveValidators :=
    if isActive && GetIsValidator v then acc.2.2.1 + 1 else acc.2.2.1
  let changedStateToInactive := previousActive && !isActive
  let hbChangedStateToInactiveMap :=
    if changedStateToInactive then acc.2.2.2 ++ [(p.1, v)] else acc.2.2.2
  (acc.1 ++ [(p.1, v)], counterConnectedNodes, counterActiveValidators,
    hbChangedStateToInactiveMap)

/-- Embedding of `Monitor.computeAllHeartbeatMessages` (monitor.go:319-347): evaluate
every record at `now`, tally active records and active validators, hand
the transitioned subset to (asynchronous) persistence, and publish the
two tallies to the app-status handler. -/
def computeAllHeartbeatMessages (m : Monitor) (eff : Effects) (now : Time) :
    Monitor × Effects :=
  let r := m.heartbeatMessages.foldl (computeAllStep now) ([], 0, 0, [])
  let eff := SaveMultipleHeartbeatMessageInfos eff r.2.2.2
  let eff := { eff with metrics := eff.metrics ++
      [(MetricLiveValidatorNodes, r.2.2.1), (MetricConnectedNodes, r.2.1)] }
  ({ m with heartbeatMessages := r.1 }, eff)

/-- Embedding of `Monitor.isPeerInFullPeersSlice` (monitor.go:289-297): linear scan
with `bytes.Equal`. -/
def isPeerInFullPeersSlice (m : Monitor) (pubKey : PubKey) : Bool :=
  m.fullPeersSlice.any (fun peer => peer == pubKey)

/-- Embedding of `Monitor.addPeerToFullPeersSlice` (monitor.go:277-287): append the
key if absent, then hand the full slice to `storer.SaveKeys` (whose
failure is only logged). -/
def addPeerToFullPeersSlice (m : Monitor) (eff : Effects) (pubKey : PubKey) :
    Monitor × Effects :=
  if isPeerInFullPeersSlice m pubKey then (m, eff)
  else
    let fullPeersSlice := m.fullPeersSlice ++ [pubKey]
    ({ m with fullPeersSlice := fullPeersSlice },
     { eff with savedKeysLog := eff.savedKeysLog ++ [fullPeersSlice] })

/-- Embedding of `Monitor.addHeartbeatMessageToMap` (monitor.go:248-275), the
asynchronous part of ingestion: look up or lazily create the sender's
record, resolve role/shard, apply `HeartbeatReceived`, persist the
exported record, and register the key in the full peers slice.  (In Go
the record is mutated through a pointer already held by the map; the
model installs the post-`HeartbeatReceived` value at the key.) -/
def addHeartbeatMessageToMap (m : Monitor) (eff : Effects)
    (ptp : PeerTypeProvider) (now : Time) (hb : Heartbeat) :
    Monitor × Effects :=
  let hbmi :=
    match m.lookup hb.Pubkey with
    | some hbmi => hbmi
    | none =>
      let ts := computePeerTypeAndShardID ptp hb.Pubkey
      newHeartbeatMessageInfo m.maxDurationPeerUnresponsive ts.1 m.genesisTime
  let ts := computePeerTypeAndShardID ptp hb.Pubkey
  let hbmi := HeartbeatReceived hbmi now ts.2 hb.ShardID hb.VersionNumber
    hb.NodeDisplayName ts.1
  let m := { m with heartbeatMessages := mapInsert m.heartbeatMessages hb.Pubkey hbmi }
  let eff := { eff with savedRecords :=
    eff.savedRecords ++ [(hb.Pubkey, convertToExportedStruct hbmi)] }
  addPeerToFullPeersSlice m eff hb.Pubkey

/-- One exported snapshot entry (`PubKeyHeartbeat`). -/
structure PubKeyHeartbeat where
  HexPublicKey : String
  TimeStamp : Time
  MaxInactiveTime : Duration
  IsActive : Bool
  ReceivedShardID : Nat
  ComputedShardID : Nat
  TotalUpTime : Int
  TotalDownTime : Int
  VersionNumber : String
  NodeDisplayName : String
  PeerType : String
deriving DecidableEq, Repr

/-- One lower-case hex digit. -/
def hexDigit (n : Nat) : Char :=
  if n < 10 then Char.ofNat (48 + n) else Char.ofNat (87 + n)

/-- The two hex digits of one byte. -/
def byteToHex (b : Fin 256) : List Char :=
  [hexDigit (b.val / 16), hexDigit (b.val % 16)]

/-- Embedding of `hex.EncodeToString` over a byte string. -/
def hexEncodeToString (bs : PubKey) : String :=
  ⟨(bs.map byteToHex).flatten⟩

/-- The snapshot view of one record (the struct literal of
monitor.go:357-369): hex-encoded key, up/down times truncated to whole
seconds, remaining fields copied. -/
def toPubKeyHeartbeat (k : PubKey) (v : heartbeatMessageInfo) : PubKeyHeartbeat :=
  { HexPublicKey := hexEncodeToString k
    TimeStamp := v.timeStamp
    MaxInactiveTime := v.maxInactiveTime
    IsActive := v.isActive
    ReceivedShardID := v.receivedShardID
    ComputedShardID := v.computedShardID
    TotalUpTime := secondsTrunc v.totalUpTime
    TotalDownTime := secondsTrunc v.totalDownTime
    VersionNumber := v.versionNumber
    NodeDisplayName := v.nodeDisplayName
    PeerType := v.peerType }

/-- Embedding of `Monitor.GetHeartbeats` (monitor.go:350-380): run an aggregation
pass, build one exported entry per record, and sort ascending by the
hex-encoded public key.  (`sort.Slice` with `strings.Compare(...) < 0`
is modelled as a merge sort with the ≤ comparison on the hex keys: both
produce a permutation that is sorted ascending.) -/
def GetHeartbeats (m : Monitor) (eff : Effects) (now : Time) :
    List PubKeyHeartbeat × Monitor × Effects :=
  let r := computeAllHeartbeatMessages m eff now
  let status := r.1.heartbeatMessages.map (fun p => toPubKeyHeartbeat p.1 p.2)
  (status.mergeSort (fun a b => a.HexPublicKey ≤ b.HexPublicKey), r.1, r.2)

/-- All public keys of the initial role assignment. -/
def initialKeys (pubKeysMap : List (Nat × List PubKey)) : List PubKey :=
  pubKeysMap.flatMap Prod.snd

/-- The keys "found in persisted storage via the persisted known-peers
list": listed by `LoadKeys` (when it succeeds) and whose persisted
record loads. -/
def storageKeys (db : StorerDB) : List PubKey :=
  if db.loadKeysOk then db.keys.filter (fun k => (db.loadHbmiDTO k).isSome)
  else []

/-- A monitor state with its effects log and, as ghost data, the public
keys of the heartbeats applied so far. -/
structure World where
  mon : Monitor
  eff : Effects
  hbReceived : List PubKey

/-- The reachable states of a monitor built over the resolver `ptp` and
the storer contents `db`: a successful construction followed by any
sequence of asynchronous heartbeat applications and aggregation passes
(`GetHeartbeats` touches the state exactly as an aggregation pass, so it
is covered by `evaluate`). -/
inductive Reachable (ptp : PeerTypeProvider) (db : StorerDB)
    (pubKeysMap : List (Nat × List PubKey)) (mdur : Duration) (g : Time) :
    World → Prop
  | init (mh : MessageHandler) (af : P2PAntifloodHandler) (now : Time)
      (mon : Monitor) (eff : Effects)
      (h : NewMonitor (some ()) mdur pubKeysMap g (some mh) (some db)
        (some ptp) (some ()) (some af) now = .ok (mon, eff)) :
      Reachable ptp db pubKeysMap mdur g ⟨mon, eff, []⟩
  | heartbeat (w : World) (hb : Heartbeat) (now : Time) :
      Reachable ptp db pubKeysMap mdur g w →
      Reachable ptp db pubKeysMap mdur g
        ⟨(addHeartbeatMessageToMap w.mon w.eff ptp now hb).1,
         (addHeartbeatMessageToMap w.mon w.eff ptp now hb).2,
         w.hbReceived ++ [hb.Pubkey]⟩
  | evaluate (w : World) (now : Time) :
      Reachable ptp db pubKeysMap mdur g w →
      Reachable ptp db pubKeysMap mdur g
        ⟨(computeAllHeartbeatMessages w.mon w.eff now).1,
         (computeAllHeartbeatMessages w.mon w.eff now).2,
         w.hbReceived⟩

/-! Concrete sample inputs shared by the witness theorems. -/

/-- A concrete exported record with the persisted-active flag set. -/
def sampleDTO : HeartbeatDTO :=
  { IsActive := true
    ReceivedShardID := 0
    ComputedShardID := 0
    VersionNumber := "v"
    NodeDisplayName := "n"
    PeerType := "observer"
    TimeStamp := 3
    MaxInactiveTime := 10
    TotalUpTime := 5
    TotalDownTime := 2
    LastUptimeDowntime := 4
    GenesisTime := 0 }

/-- A concrete storer content holding `sampleDTO` under key `[7]`. -/
def sampleDB : StorerDB :=
  { hbmiDTOs := [([7], sampleDTO)]
    keys := []
    loadKeysOk := true
    updateGenesisTimeOk := true }

/-- A concrete empty monitor state with threshold 10 ns. -/
def sampleMonitor : Monitor :=
  { maxDurationPeerUnresponsive := 10
    heartbeatMessages := []
    pubKeysMap := []
    fullPeersSlice := []
    genesisTime := 0 }

/-- A concrete resolver that always fails (degrading to the observer
default). -/
def sampleResolver : PeerTypeProvider :=
  ⟨fun _ => none, fun _ _ => none⟩

/-- A concrete admission gate that accepts everything. -/
def gateAccept : P2PAntifloodHandler := ⟨fun _ _ => none, fun _ _ => none⟩

/-- A concrete admission gate rejecting every per-peer check. -/
def gateReject : P2PAntifloodHandler :=
  ⟨fun _ _ => some (.collaborator "flood"), fun _ _ => none⟩

/-- A concrete decoded heartbeat. -/
def sampleHeartbeat : Heartbeat := ⟨[7], 1, "v", "n"⟩

/-- A concrete decoder that always yields `sampleHeartbeat`. -/
def decoderOk : MessageHandler := ⟨fun _ => .ok sampleHeartbeat⟩

/-- A concrete decoder that always fails. -/
def decoderFail : MessageHandler := ⟨fun _ => .error (.collaborator "decode")⟩

/-- A concrete well-formed transport message. -/
def sampleMsg : MessageP2P := ⟨false, some [1]⟩

/-- The empty effects log. -/
def emptyEffects : Effects := ⟨[], [], [], []⟩

/-- The concrete monitor and effects produced by a successful sample
construction (used to exhibit a reachable state). -/
def witPair : Monitor × Effects :=
  match NewMonitor (some ()) 10 [(0, [[7]])] 0 (some decoderOk) (some sampleDB)
      (some sampleResolver) (some ()) (some gateAccept) 5 with
  | .ok p => p
  | .error _ => (sampleMonitor, emptyEffects)

end heartbeat

namespace heartbeat

/-- C6: round-trip of a record through its exported DTO form. -/
theorem convert_roundTrip (v : heartbeatMessageInfo) (maxDuration : Duration) :
    let w := convertFromExportedStruct (convertToExportedStruct v) maxDuration
    w.isActive = v.isActive ∧
    w.receivedShardID = v.receivedShardID ∧
    w.computedShardID = v.computedShardID ∧
    w.versionNumber = v.versionNumber ∧
    w.nodeDisplayName = v.nodeDisplayName ∧
    w.peerType = v.peerType ∧
    w.timeStamp = v.timeStamp ∧
    w.maxInactiveTime = v.maxInactiveTime ∧
    w.totalUpTime = v.totalUpTime ∧
    w.totalDownTime = v.totalDownTime ∧
    w.lastUptimeDowntime = v.lastUptimeDowntime ∧
    w.genesisTime = v.genesisTime := by
  refine ⟨rfl, rfl, rfl, rfl, rfl, rfl, rfl, rfl, rfl, rfl, rfl, rfl⟩

/-- C2: reloading a persisted record at time `now` with persisted
watermark `dto.LastUptimeDowntime` credits exactly
`max 0 (now − watermark)` to uptime when the persisted flag is active,
else to downtime; the other total is unchanged and the watermark is set
to `now`. -/
theorem loadHbmiFromStorer_accounting (m : Monitor) (ptp : PeerTypeProvider)
    (db : StorerDB) (now : Time) (pubKey : PubKey) (dto : HeartbeatDTO)
    (h : db.loadHbmiDTO pubKey = some dto) :
    ∃ r, loadHbmiFromStorer m ptp db now pubKey = some r ∧
      (dto.IsActive = true →
        r.totalUpTime = dto.TotalUpTime + max 0 (now - dto.LastUptimeDowntime) ∧
        r.totalDownTime = dto.TotalDownTime) ∧
      (dto.IsActive = false →
        r.totalDownTime = dto.TotalDownTime + max 0 (now - dto.LastUptimeDowntime) ∧
        r.totalUpTime = dto.TotalUpTime) ∧
      r.lastUptimeDowntime = now := by
  refine ⟨_, by rw [loadHbmiFromStorer, h], ?_, ?_, ?_⟩ <;>
    cases ha : dto.IsActive <;>
      simp [convertFromExportedStruct, maxDuration, ha]

/-- Witness for C2 at a concrete storer content. -/
theorem loadHbmiFromStorer_accounting_witness :
    ∃ r, loadHbmiFromStorer sampleMonitor sampleResolver sampleDB 9 [7] = some r ∧
      (sampleDTO.IsActive = true →
        r.totalUpTime = sampleDTO.TotalUpTime + max 0 (9 - sampleDTO.LastUptimeDowntime) ∧
        r.totalDownTime = sampleDTO.TotalDownTime) ∧
      (sampleDTO.IsActive = false →
        r.totalDownTime = sampleDTO.TotalDownTime + max 0 (9 - sampleDTO.LastUptimeDowntime) ∧
        r.totalUpTime = sampleDTO.TotalUpTime) ∧
      r.lastUptimeDowntime = 9 :=
  loadHbmiFromStorer_accounting sampleMonitor sampleResolver sampleDB 9 [7]
    sampleDTO (by rfl)

/-- C10: on reload, a persisted-active record's `timeStamp` is reset to
the reload instant `now` (so an evaluation within the unresponsiveness
threshold of `now` still finds it active, although no heartbeat
arrived); a persisted-inactive record keeps its persisted `timeStamp`. -/
theorem loadHbmiFromStorer_timeStamp (m : Monitor) (ptp : PeerTypeProvider)
    (db : StorerDB) (now : Time) (pubKey : PubKey) (dto : HeartbeatDTO)
    (t2 : Time) (h : db.loadHbmiDTO pubKey = some dto) :
    ∃ r, loadHbmiFromStorer m ptp db now pubKey = some r ∧
      (dto.IsActive = true → r.timeStamp = now ∧
        (t2 - now < m.maxDurationPeerUnresponsive →
          (ComputeActive r t2).isActive = true)) ∧
      (dto.IsActive = false → r.timeStamp = dto.TimeStamp) := by
  refine ⟨_, by rw [loadHbmiFromStorer, h], ?_, ?_⟩ <;>
    cases ha : dto.IsActive <;>
      simp [convertFromExportedStruct, maxDuration, ComputeActive, ha]

/-- C1: `ProcessReceivedMessage` rejects a nil message with
`ErrNilMessage` and a nil payload with `ErrNilDataToProcess`; either
admission-gate rejection and any decode failure are propagated
verbatim; in every error case the monitor state is unchanged and no
asynchronous update is scheduled (so no record is mutated); when all
checks pass it returns success and schedules exactly the decoded
heartbeat. -/
theorem ProcessReceivedMessage_spec (m : Monitor) (af : P2PAntifloodHandler)
    (mh : MessageHandler) (message : Option MessageP2P) (fp : String) :
    (ProcessReceivedMessage m af mh message fp).2.1 = m ∧
    (message = none →
      ProcessReceivedMessage m af mh message fp = (.error .ErrNilMessage, m, [])) ∧
    (∀ msg, message = some msg → msg.isInterfaceNil = true →
      ProcessReceivedMessage m af mh message fp = (.error .ErrNilMessage, m, [])) ∧
    (∀ msg, message = some msg → msg.isInterfaceNil = false → msg.data = none →
      ProcessReceivedMessage m af mh message fp = (.error .ErrNilDataToProcess, m, [])) ∧
    (∀ msg e, message = some msg → msg.isInterfaceNil = false → msg.data ≠ none →
      af.canProcessMessage msg fp = some e →
      ProcessReceivedMessage m af mh message fp = (.error e, m, [])) ∧
    (∀ msg e, message = some msg → msg.isInterfaceNil = false → msg.data ≠ none →
      af.canProcessMessage msg fp = none →
      af.canProcessMessageOnTopic fp HeartbeatTopic = some e →
      ProcessReceivedMessage m af mh message fp = (.error e, m, [])) ∧
    (∀ msg e, message = some msg → msg.isInterfaceNil = false → msg.data ≠ none →
      af.canProcessMessage msg fp = none →
      af.canProcessMessageOnTopic fp HeartbeatTopic = none →
      mh.createHeartbeatFromP2PMessage msg = .error e →
      ProcessReceivedMessage m af mh message fp = (.error e, m, [])) ∧
    (∀ msg hb, message = some msg → msg.isInterfaceNil = false → msg.data ≠ none →
      af.canProcessMessage msg fp = none →
      af.canProcessMessageOnTopic fp HeartbeatTopic = none →
      mh.createHeartbeatFromP2PMessage msg = .ok hb →
      ProcessReceivedMessage m af mh message fp = (.ok (), m, [hb])) := by
  refine ⟨?_, ?_, ?_, ?_, ?_, ?_, ?_, ?_⟩
  · rcases message with _ | msg
    · rfl
    · unfold ProcessReceivedMessage
      repeat' first
        | rfl
        | split
  · rintro rfl; rfl
  · rintro msg rfl hn; simp [ProcessReceivedMessage, hn]
  · rintro msg rfl hn hd; simp [ProcessReceivedMessage, hn, hd]
  · rintro msg e rfl hn hd hg
    simp [ProcessReceivedMessage, hn, Option.isNone_iff_eq_none, hd, hg]
  · rintro msg e rfl hn hd hg1 hg2
    simp [ProcessReceivedMessage, hn, Option.isNone_iff_eq_none, hd, hg1, hg2]
  · rintro msg e rfl hn hd hg1 hg2 hdec
    simp [ProcessReceivedMessage, hn, Option.isNone_iff_eq_none, hd, hg1, hg2, hdec]
  · rintro msg hb rfl hn hd hg1 hg2 hdec
    simp [ProcessReceivedMessage, hn, Option.isNone_iff_eq_none, hd, hg1, hg2, hdec]

/-- Witness for C1: the nil-message, gate-rejection, decode-failure and
success cases at concrete inputs. -/
theorem ProcessReceivedMessage_spec_witness :
    ProcessReceivedMessage sampleMonitor gateAccept decoderOk none "p" =
      (.error .ErrNilMessage, sampleMonitor, []) ∧
    ProcessReceivedMessage sampleMonitor gateReject decoderOk (some sampleMsg) "p" =
      (.error (.collaborator "flood"), sampleMonitor, []) ∧
    ProcessReceivedMessage sampleMonitor gateAccept decoderFail (some sampleMsg) "p" =
      (.error (.collaborator "decode"), sampleMonitor, []) ∧
    ProcessReceivedMessage sampleMonitor gateAccept decoderOk (some sampleMsg) "p" =
      (.ok (), sampleMonitor, [sampleHeartbeat]) :=
  ⟨(ProcessReceivedMessage_spec sampleMonitor gateAccept decoderOk none "p").2.1 rfl,
   (ProcessReceivedMessage_spec sampleMonitor gateReject decoderOk (some sampleMsg)
      "p").2.2.2.2.1 sampleMsg (.collaborator "flood") rfl rfl (by decide) rfl,
   (ProcessReceivedMessage_spec sampleMonitor gateAccept decoderFail (some sampleMsg)
      "p").2.2.2.2.2.2.1 sampleMsg (.collaborator "decode") rfl rfl (by decide)
      rfl rfl rfl,
   (ProcessReceivedMessage_spec sampleMonitor gateAccept decoderOk (some sampleMsg)
      "p").2.2.2.2.2.2.2 sampleMsg sampleHeartbeat rfl rfl (by decide) rfl rfl rfl⟩

/-- Characterization of the aggregation loop: it rebuilds the map with
every record evaluated, counts post-evaluation active records and active
validators, and collects exactly the Active → Inactive transitioned
records (in their post-evaluation state). -/
theorem computeAll_foldl_spec (now : Time)
    (l : List (PubKey × heartbeatMessageInfo))
    (acc : List (PubKey × heartbeatMessageInfo) × Nat × Nat ×
      List (PubKey × heartbeatMessageInfo)) :
    l.foldl (computeAllStep now) acc =
      (acc.1 ++ l.map (fun p => (p.1, ComputeActive p.2 now)),
       acc.2.1 + l.countP (fun p => GetIsActive (ComputeActive p.2 now)),
       acc.2.2.1 + l.countP (fun p => GetIsActive (ComputeActive p.2 now) &&
         GetIsValidator (ComputeActive p.2 now)),
       acc.2.2.2 ++ (l.filter (fun p => GetIsActive p.2 &&
           !GetIsActive (ComputeActive p.2 now))).map
         (fun p => (p.1, ComputeActive p.2 now))) := by
  induction l generalizing acc with
  | nil => simp
  | cons p t ih =>
    rw [List.foldl_cons, ih]
    simp only [computeAllStep, List.countP_cons, List.filter_cons]
    cases hA : GetIsActive (ComputeActive p.2 now) <;>
      cases hV : GetIsValidator (ComputeActive p.2 now) <;>
        cases hP : GetIsActive p.2 <;>
          simp [hA, hV, hP] <;> omega

/-- Lookup after a Go map assignment: the assigned key now maps to the
assigned value, every other key is untouched. -/
theorem lookupMap_mapInsert (l : List (PubKey × heartbeatMessageInfo))
    (k : PubKey) (v : heartbeatMessageInfo) (k' : PubKey) :
    lookupMap (mapInsert l k v) k' =
      if k' = k then some v else lookupMap l k' := by
  induction l with
  | nil =>
    by_cases h : k' = k
    · subst h; simp [mapInsert, lookupMap]
    · have hb : (k == k') = false := beq_eq_false_iff_ne.2 fun hh => h hh.symm
      simp [mapInsert, lookupMap, List.find?, hb, h]
  | cons a t ih =>
    obtain ⟨k1, v1⟩ := a
    by_cases h1 : k1 = k
    · subst h1
      by_cases h2 : k' = k1
      · subst h2
        simp [mapInsert, lookupMap, List.find?]
      · have hb : (k1 == k') = false := beq_eq_false_iff_ne.2 fun hh => h2 hh.symm
        simp [mapInsert, lookupMap, List.find?, hb, h2]
    · have hb1 : (k1 == k) = false := beq_eq_false_iff_ne.2 h1
      by_cases h2 : k' = k1
      · subst h2
        simp [mapInsert, lookupMap, List.find?, hb1, h1]
      · have hb2 : (k1 == k') = false := beq_eq_false_iff_ne.2 fun hh => h2 hh.symm
        simp only [mapInsert, hb1, Bool.false_eq_true, if_false,
          lookupMap, List.find?, hb2]
        exact ih

/-- Mapping a function over the values of an association list maps it
over each lookup result. -/
theorem lookupMap_mapValues (l : List (PubKey × heartbeatMessageInfo))
    (f : heartbeatMessageInfo → heartbeatMessageInfo) (k : PubKey) :
    lookupMap (l.map (fun p => (p.1, f p.2))) k = (lookupMap l k).map f := by
  induction l with
  | nil => simp [lookupMap]
  | cons a t ih =>
    obtain ⟨k1, v1⟩ := a
    by_cases h : k1 = k
    · subst h; simp [lookupMap, List.find?]
    · have hb : (k1 == k) = false := beq_eq_false_iff_ne.2 h
      simp only [List.map_cons, lookupMap, List.find?, hb]
      exact ih

/-- Registering a peer in the full peers slice does not touch the
records map. -/
theorem addPeer_heartbeatMessages (m : Monitor) (eff : Effects) (pk : PubKey) :
    (addPeerToFullPeersSlice m eff pk).1.heartbeatMessages =
      m.heartbeatMessages := by
  unfold addPeerToFullPeersSlice
  split <;> rfl

/-- A record exists after an asynchronous heartbeat application iff it
existed before or the heartbeat's sender got its record created. -/
theorem addHeartbeat_lookup_isSome (m : Monitor) (eff : Effects)
    (ptp : PeerTypeProvider) (now : Time) (hb : Heartbeat) (k : PubKey) :
    (((addHeartbeatMessageToMap m eff ptp now hb).1).lookup k).isSome = true ↔
      ((m.lookup k).isSome = true ∨ k = hb.Pubkey) := by
  unfold addHeartbeatMessageToMap
  cases hl : m.lookup hb.Pubkey <;>
    simp only [Monitor.lookup, addPeer_heartbeatMessages, lookupMap_mapInsert] <;>
    by_cases h : k = hb.Pubkey <;> simp [h]

/-- Evaluation maps every record in place. -/
theorem computeAll_lookup (m : Monitor) (eff : Effects) (now : Time)
    (k : PubKey) :
    ((computeAllHeartbeatMessages m eff now).1).lookup k =
      (m.lookup k).map (fun v => ComputeActive v now) := by
  have h1 : (computeAllHeartbeatMessages m eff now).1.heartbeatMessages =
      m.heartbeatMessages.map (fun p => (p.1, ComputeActive p.2 now)) := by
    simp [computeAllHeartbeatMessages, computeAll_foldl_spec]
  rw [Monitor.lookup, Monitor.lookup, h1]
  exact lookupMap_mapValues m.heartbeatMessages (fun v => ComputeActive v now) k

/-- Reload succeeds exactly when the persisted record is present. -/
theorem loadHbmiFromStorer_isSome (m : Monitor) (ptp : PeerTypeProvider)
    (db : StorerDB) (now : Time) (k : PubKey) :
    (loadHbmiFromStorer m ptp db now k).isSome = (db.loadHbmiDTO k).isSome := by
  unfold loadHbmiFromStorer
  cases db.loadHbmiDTO k <;> simp

/-- Membership after one initialization step. -/
theorem initPK_lookup_isSome (mon : Monitor) (ptp : PeerTypeProvider)
    (db : StorerDB) (now : Time) (pubkey : PubKey) (shardId : Nat)
    (st : InitState) (k : PubKey) :
    (lookupMap (initializeHeartBeatForPK mon ptp db now pubkey shardId
        st).heartbeatMessages k).isSome = true ↔
      (k = pubkey ∨ (lookupMap st.heartbeatMessages k).isSome = true) := by
  unfold initializeHeartBeatForPK
  cases loadHbmiFromStorer mon ptp db now pubkey <;>
    simp only [lookupMap_mapInsert] <;>
    by_cases h : k = pubkey <;> simp [h]

/-- Membership after the per-shard initialization loop. -/
theorem initShard_lookup_isSome (mon : Monitor) (ptp : PeerTypeProvider)
    (db : StorerDB) (now : Time) (shardId : Nat) (pks : List PubKey)
    (st : InitState) (k : PubKey) :
    (lookupMap ((pks.foldl (fun st pubkey =>
        initializeHeartBeatForPK mon ptp db now pubkey shardId st)
        st).heartbeatMessages) k).isSome = true ↔
      (k ∈ pks ∨ (lookupMap st.heartbeatMessages k).isSome = true) := by
  induction pks generalizing st with
  | nil => simp
  | cons p t ih =>
    rw [List.foldl_cons, ih]
    rw [initPK_lookup_isSome]
    simp only [List.mem_cons]
    tauto

/-- Membership after the whole initialization double loop. -/
theorem initAll_lookup_isSome (mon : Monitor) (ptp : PeerTypeProvider)
    (db : StorerDB) (now : Time) (pubKeysMap : List (Nat × List PubKey))
    (k : PubKey) :
    (lookupMap (initializeHeartbeatMessagesInfo mon ptp db now
        pubKeysMap).heartbeatMessages k).isSome = true ↔
      k ∈ initialKeys pubKeysMap := by
  suffices h : ∀ (l : List (Nat × List PubKey)) (st : InitState),
      (lookupMap ((l.foldl (fun st p => p.2.foldl
          (fun st pubkey => initializeHeartBeatForPK mon ptp db now pubkey p.1 st)
          st) st).heartbeatMessages) k).isSome = true ↔
        (k ∈ l.flatMap Prod.snd ∨
          (lookupMap st.heartbeatMessages k).isSome = true) by
    rw [initializeHeartbeatMessagesInfo, h, initialKeys]
    simp [lookupMap]
  intro l
  induction l with
  | nil => simp
  | cons p t ih =>
    intro st
    rw [List.foldl_cons, ih, initShard_lookup_isSome]
    simp only [List.flatMap_cons, List.mem_append]
    tauto

/-- Membership after the recovery walk over the persisted known-peers
list. -/
theorem loadRest_lookup_isSome (mon : Monitor) (ptp : PeerTypeProvider)
    (db : StorerDB) (now : Time) (k : PubKey) :
    (((loadRestOfPubKeysFromStorage mon ptp db now).lookup k)).isSome = true ↔
      ((mon.lookup k).isSome = true ∨
        (db.loadKeysOk = true ∧ k ∈ db.keys ∧
          (db.loadHbmiDTO k).isSome = true)) := by
  have hstep : ∀ (acc : Monitor) (p : PubKey),
      ((loadRestStep ptp db now acc p).lookup k).isSome = true ↔
        ((acc.lookup k).isSome = true ∨
          (k = p ∧ (db.loadHbmiDTO k).isSome = true)) := by
    intro acc p
    unfold loadRestStep
    cases hl : acc.lookup p with
    | some v =>
      constructor
      · exact Or.inl
      · rintro (hk | ⟨rfl, _⟩)
        · exact hk
        · simp [hl]
    | none =>
      cases hload : loadHbmiFromStorer acc ptp db now p with
      | none =>
        have : (db.loadHbmiDTO p).isSome = false := by
          rw [← loadHbmiFromStorer_isSome acc ptp db now p, hload]; rfl
        constructor
        · exact Or.inl
        · rintro (hk | ⟨rfl, hk⟩)
          · exact hk
          · rw [this] at hk; cases hk
      | some hbmi =>
        have hdto : (db.loadHbmiDTO p).isSome = true := by
          rw [← loadHbmiFromStorer_isSome acc ptp db now p, hload]; rfl
        simp only [Monitor.lookup, lookupMap_mapInsert]
        by_cases h : k = p <;> simp [h, hdto]
  suffices hfold : ∀ (keys : List PubKey) (acc : Monitor),
      (((keys.foldl (loadRestStep ptp db now) acc)).lookup k).isSome = true ↔
        ((acc.lookup k).isSome = true ∨
          (k ∈ keys ∧ (db.loadHbmiDTO k).isSome = true)) by
    unfold loadRestOfPubKeysFromStorage
    by_cases hok : db.loadKeysOk <;> simp [hok, hfold]
  intro keys
  induction keys with
  | nil => simp
  | cons p t ih =>
    intro acc
    rw [List.foldl_cons, ih, hstep]
    simp only [List.mem_cons]
    constructor
    · rintro ((hk | ⟨rfl, hdto⟩) | ⟨hm, hdto⟩)
      · exact Or.inl hk
      · exact Or.inr ⟨Or.inl rfl, hdto⟩
      · exact Or.inr ⟨Or.inr hm, hdto⟩
    · rintro (hk | ⟨(rfl | hm), hdto⟩)
      · exact Or.inl (Or.inl hk)
      · exact Or.inl (Or.inr ⟨rfl, hdto⟩)
      · exact Or.inr ⟨hm, hdto⟩

/-- Membership in the keys found in persisted storage. -/
theorem mem_storageKeys (db : StorerDB) (k : PubKey) :
    k ∈ storageKeys db ↔
      (db.loadKeysOk = true ∧ k ∈ db.keys ∧
        (db.loadHbmiDTO k).isSome = true) := by
  unfold storageKeys
  by_cases h : db.loadKeysOk <;> simp [h, List.mem_filter]

/-- The records map of a freshly constructed monitor: a record exists
iff the key is in the initial assignment or was found in storage. -/
theorem NewMonitor_lookup_isSome (mdur : Duration)
    (pubKeysMap : List (Nat × List PubKey)) (g : Time) (mh : MessageHandler)
    (db : StorerDB) (ptp : PeerTypeProvider) (af : P2PAntifloodHandler)
    (now : Time) (mon : Monitor) (eff : Effects)
    (h : NewMonitor (some ()) mdur pubKeysMap g (some mh) (some db)
      (some ptp) (some ()) (some af) now = .ok (mon, eff)) (k : PubKey) :
    (mon.lookup k).isSome = true ↔
      (k ∈ initialKeys pubKeysMap ∨ k ∈ storageKeys db) := by
  by_cases hlen : (pubKeysMap.length == 0) = true
  · simp [NewMonitor, hlen] at h
  · by_cases hg : db.updateGenesisTimeOk = true
    · simp only [NewMonitor, hlen, Bool.false_eq_true, if_false, hg, if_true,
        Except.ok.injEq, Prod.mk.injEq] at h
      obtain ⟨hmon, -⟩ := h
      rw [← hmon, loadRest_lookup_isSome, mem_storageKeys]
      simp only [Monitor.lookup]
      rw [initAll_lookup_isSome]
    · simp [NewMonitor, hlen, hg] at h

/-- C3: `NewMonitor` yields an error — and hence no monitor — whenever
any required collaborator is nil or the initial role assignment is
empty; conversely a monitor is produced only when all of these
construction checks pass. -/
theorem NewMonitor_checks (marshalizer : Option Unit) (mdur : Duration)
    (pubKeysMap : List (Nat × List PubKey)) (g : Time)
    (mh : Option MessageHandler) (storer : Option StorerDB)
    (ptp : Option PeerTypeProvider) (tmr : Option Unit)
    (af : Option P2PAntifloodHandler) (now : Time) :
    (marshalizer = none ∨ ptp = none ∨ pubKeysMap = [] ∨ mh = none ∨
        storer = none ∨ tmr = none ∨ af = none →
      ∃ e, NewMonitor marshalizer mdur pubKeysMap g mh storer ptp tmr af now =
        .error e) ∧
    ((NewMonitor marshalizer mdur pubKeysMap g mh storer ptp tmr af now).isOk =
        true →
      marshalizer ≠ none ∧ ptp ≠ none ∧ pubKeysMap ≠ [] ∧ mh ≠ none ∧
        storer ≠ none ∧ tmr ≠ none ∧ af ≠ none) := by
  constructor
  · intro h
    rcases marshalizer with _ | mar
    · exact ⟨_, rfl⟩
    rcases ptp with _ | p
    · exact ⟨_, rfl⟩
    rcases pubKeysMap with _ | ⟨k, rest⟩
    · exact ⟨_, rfl⟩
    rcases mh with _ | mh'
    · exact ⟨_, rfl⟩
    rcases storer with _ | db
    · exact ⟨_, rfl⟩
    rcases tmr with _ | t
    · exact ⟨_, rfl⟩
    rcases af with _ | a
    · exact ⟨_, rfl⟩
    simp at h
  · intro h
    rcases marshalizer with _ | mar
    · exact absurd h (by simp [NewMonitor, Except.isOk, Except.toBool])
    rcases ptp with _ | p
    · exact absurd h (by simp [NewMonitor, Except.isOk, Except.toBool])
    rcases pubKeysMap with _ | ⟨k, rest⟩
    · exact absurd h (by simp [NewMonitor, Except.isOk, Except.toBool])
    rcases mh with _ | mh'
    · exact absurd h (by simp [NewMonitor, Except.isOk, Except.toBool])
    rcases storer with _ | db
    · exact absurd h (by simp [NewMonitor, Except.isOk, Except.toBool])
    rcases tmr with _ | t
    · exact absurd h (by simp [NewMonitor, Except.isOk, Except.toBool])
    rcases af with _ | a
    · exact absurd h (by simp [NewMonitor, Except.isOk, Except.toBool])
    simp

/-- Witness for C3: a nil marshalizer is rejected, and a fully supplied
construction passes the checks. -/
theorem NewMonitor_checks_witness :
    (∃ e, NewMonitor none 10 [] 0 none none none none none 5 = .error e) ∧
    ((some () : Option Unit) ≠ none ∧
      (some sampleResolver : Option PeerTypeProvider) ≠ none ∧
      ([(0, [[7]])] : List (Nat × List PubKey)) ≠ [] ∧
      (some decoderOk : Option MessageHandler) ≠ none ∧
      (some sampleDB : Option StorerDB) ≠ none ∧
      (some () : Option Unit) ≠ none ∧
      (some gateAccept : Option P2PAntifloodHandler) ≠ none) :=
  ⟨(NewMonitor_checks none 10 [] 0 none none none none none 5).1 (Or.inl rfl),
   (NewMonitor_checks (some ()) 10 [(0, [[7]])] 0 (some decoderOk) (some sampleDB)
      (some sampleResolver) (some ()) (some gateAccept) 5).2 (by rfl)⟩

/-- C4: the records an aggregation pass hands to persistence are exactly
those whose `isActive` flag was true before the pass's evaluation and
false after it (in their post-evaluation exported form); no other record
is persisted by the pass. -/
theorem computeAll_persists_transitioned (m : Monitor) (eff : Effects)
    (now : Time) :
    ((computeAllHeartbeatMessages m eff now).2).savedRecords =
      eff.savedRecords ++
        (m.heartbeatMessages.filter (fun p => GetIsActive p.2 &&
            !GetIsActive (ComputeActive p.2 now))).map
          (fun p => (p.1, convertToExportedStruct (ComputeActive p.2 now))) := by
  simp [computeAllHeartbeatMessages, computeAll_foldl_spec,
    SaveMultipleHeartbeatMessageInfos, List.map_map, Function.comp_def]

/-- C7: the two metric values an aggregation pass publishes are the
count of records active after the pass's evaluation and the count of
records both active after the evaluation and marked validators by their
role. -/
theorem computeAll_metrics (m : Monitor) (eff : Effects) (now : Time) :
    ((computeAllHeartbeatMessages m eff now).2).metrics =
      eff.metrics ++
        [(MetricLiveValidatorNodes,
          m.heartbeatMessages.countP (fun p =>
            GetIsActive (ComputeActive p.2 now) &&
            GetIsValidator (ComputeActive p.2 now))),
         (MetricConnectedNodes,
          m.heartbeatMessages.countP (fun p =>
            GetIsActive (ComputeActive p.2 now)))] := by
  simp [computeAllHeartbeatMessages, computeAll_foldl_spec,
    SaveMultipleHeartbeatMessageInfos]

/-- C5: the snapshot first runs a full evaluation pass (its state effect
is exactly the aggregation pass's), returns exactly one entry per record
— hex-encoded key, all fields from the evaluated record, up/down times
truncated to whole seconds — and the returned list is sorted ascending
by the hex-encoded public key, whatever the iteration order of the
underlying mapping (the arbitrary list `m.heartbeatMessages`). -/
theorem GetHeartbeats_spec (m : Monitor) (eff : Effects) (now : Time) :
    (GetHeartbeats m eff now).2 = computeAllHeartbeatMessages m eff now ∧
    ((GetHeartbeats m eff now).1).Perm
      (m.heartbeatMessages.map (fun p =>
        { HexPublicKey := hexEncodeToString p.1
          TimeStamp := (ComputeActive p.2 now).timeStamp
          MaxInactiveTime := (ComputeActive p.2 now).maxInactiveTime
          IsActive := (ComputeActive p.2 now).isActive
          ReceivedShardID := (ComputeActive p.2 now).receivedShardID
          ComputedShardID := (ComputeActive p.2 now).computedShardID
          TotalUpTime := secondsTrunc (ComputeActive p.2 now).totalUpTime
          TotalDownTime := secondsTrunc (ComputeActive p.2 now).totalDownTime
          VersionNumber := (ComputeActive p.2 now).versionNumber
          NodeDisplayName := (ComputeActive p.2 now).nodeDisplayName
          PeerType := (ComputeActive p.2 now).peerType })) ∧
    List.Sorted (fun a b : PubKeyHeartbeat => a.HexPublicKey ≤ b.HexPublicKey)
      ((GetHeartbeats m eff now).1) := by
  have hmap : (computeAllHeartbeatMessages m eff now).1.heartbeatMessages =
      m.heartbeatMessages.map (fun p => (p.1, ComputeActive p.2 now)) := by
    simp [computeAllHeartbeatMessages, computeAll_foldl_spec]
  refine ⟨rfl, ?_, ?_⟩
  · show (((computeAllHeartbeatMessages m eff now).1.heartbeatMessages.map
        (fun p => toPubKeyHeartbeat p.1 p.2)).mergeSort
        (fun a b => a.HexPublicKey ≤ b.HexPublicKey)).Perm _
    refine (List.mergeSort_perm _ _).trans ?_
    rw [hmap, List.map_map]
    exact List.Perm.refl _
  · have htrans : ∀ a b c : PubKeyHeartbeat,
        decide (a.HexPublicKey ≤ b.HexPublicKey) = true →
        decide (b.HexPublicKey ≤ c.HexPublicKey) = true →
        decide (a.HexPublicKey ≤ c.HexPublicKey) = true := by
      intro a b c hab hbc
      simp only [decide_eq_true_eq] at hab hbc ⊢
      exact le_trans hab hbc
    have htotal : ∀ a b : PubKeyHeartbeat,
        (decide (a.HexPublicKey ≤ b.HexPublicKey) ||
          decide (b.HexPublicKey ≤ a.HexPublicKey)) = true := by
      intro a b
      simp only [Bool.or_eq_true, decide_eq_true_eq]
      exact le_total _ _
    have hs := List.sorted_mergeSort htrans htotal
      ((computeAllHeartbeatMessages m eff now).1.heartbeatMessages.map
        (fun p => toPubKeyHeartbeat p.1 p.2))
    exact hs.imp (fun h => by simpa using h)

/-- C9: the full-peers slice invariants: an addition happens only when
the key is absent (keeping the sequence deduplicated), existing entries
are never removed or reordered (the old sequence stays a prefix), and
every addition hands the full new sequence to `storer.SaveKeys`; the
asynchronous heartbeat application preserves all of this, and an
aggregation pass leaves the sequence untouched. -/
theorem fullPeersSlice_invariants (m : Monitor) (eff : Effects) (pk : PubKey)
    (hnd : m.fullPeersSlice.Nodup) :
    ((addPeerToFullPeersSlice m eff pk).1.fullPeersSlice.Nodup ∧
     (pk ∈ m.fullPeersSlice → addPeerToFullPeersSlice m eff pk = (m, eff)) ∧
     (pk ∉ m.fullPeersSlice →
       (addPeerToFullPeersSlice m eff pk).1.fullPeersSlice =
         m.fullPeersSlice ++ [pk] ∧
       (addPeerToFullPeersSlice m eff pk).2.savedKeysLog =
         eff.savedKeysLog ++ [m.fullPeersSlice ++ [pk]])) ∧
    (∀ ptp now hb, ∃ t,
      (addHeartbeatMessageToMap m eff ptp now hb).1.fullPeersSlice =
        m.fullPeersSlice ++ t ∧
      (addHeartbeatMessageToMap m eff ptp now hb).1.fullPeersSlice.Nodup) ∧
    (∀ now, ((computeAllHeartbeatMessages m eff now).1).fullPeersSlice =
      m.fullPeersSlice) := by
  have hmem : ∀ (m' : Monitor) (k : PubKey),
      isPeerInFullPeersSlice m' k = true ↔ k ∈ m'.fullPeersSlice := by
    intro m' k
    simp only [isPeerInFullPeersSlice, List.any_eq_true, beq_iff_eq]
    constructor
    · rintro ⟨x, hx, rfl⟩; exact hx
    · intro hk; exact ⟨k, hk, rfl⟩
  have haddCases : ∀ (m' : Monitor) (eff' : Effects) (k : PubKey),
      m'.fullPeersSlice.Nodup →
      (k ∈ m'.fullPeersSlice ∧ addPeerToFullPeersSlice m' eff' k = (m', eff')) ∨
      (k ∉ m'.fullPeersSlice ∧
        (addPeerToFullPeersSlice m' eff' k).1.fullPeersSlice =
          m'.fullPeersSlice ++ [k] ∧
        (addPeerToFullPeersSlice m' eff' k).2.savedKeysLog =
          eff'.savedKeysLog ++ [m'.fullPeersSlice ++ [k]] ∧
        (addPeerToFullPeersSlice m' eff' k).1.fullPeersSlice.Nodup) := by
    intro m' eff' k hnd'
    by_cases hk : k ∈ m'.fullPeersSlice
    · refine .inl ⟨hk, ?_⟩
      simp [addPeerToFullPeersSlice, (hmem m' k).2 hk]
    · have hfalse : isPeerInFullPeersSlice m' k = false := by
        rw [Bool.eq_false_iff]
        intro h
        exact hk ((hmem m' k).1 h)
      refine .inr ⟨hk, ?_, ?_, ?_⟩ <;>
        simp [addPeerToFullPeersSlice, hfalse, List.nodup_append, hnd', hk]
  refine ⟨⟨?_, ?_, ?_⟩, ?_, ?_⟩
  · rcases haddCases m eff pk hnd with ⟨_, heq⟩ | ⟨_, _, _, hnd2⟩
    · rw [heq]; exact hnd
    · exact hnd2
  · intro hk
    rcases haddCases m eff pk hnd with ⟨_, heq⟩ | ⟨hk2, _⟩
    · exact heq
    · exact absurd hk hk2
  · intro hk
    rcases haddCases m eff pk hnd with ⟨hk2, _⟩ | ⟨_, h1, h2, _⟩
    · exact absurd hk2 hk
    · exact ⟨h1, h2⟩
  · intro ptp now hb
    show ∃ t, (addPeerToFullPeersSlice _ _ hb.Pubkey).1.fullPeersSlice =
        m.fullPeersSlice ++ t ∧
      (addPeerToFullPeersSlice _ _ hb.Pubkey).1.fullPeersSlice.Nodup
    rcases haddCases
        { m with heartbeatMessages := mapInsert m.heartbeatMessages hb.Pubkey _ }
        _ hb.Pubkey hnd with ⟨_, heq⟩ | ⟨_, h1, _, hnd2⟩
    · exact ⟨[], by rw [heq]; simp, by rw [heq]; exact hnd⟩
    · exact ⟨[hb.Pubkey], h1, hnd2⟩
  · intro now
    rfl

/-- Witness for C9: adding an absent key to an empty (duplicate-free)
slice appends it and hands the new sequence to persistence. -/
theorem fullPeersSlice_invariants_witness :
    sampleMonitor.fullPeersSlice.Nodup ∧
    ([7] : PubKey) ∉ sampleMonitor.fullPeersSlice ∧
    ((addPeerToFullPeersSlice sampleMonitor emptyEffects [7]).1.fullPeersSlice =
        sampleMonitor.fullPeersSlice ++ [[7]] ∧
      (addPeerToFullPeersSlice sampleMonitor emptyEffects [7]).2.savedKeysLog =
        emptyEffects.savedKeysLog ++ [sampleMonitor.fullPeersSlice ++ [[7]]]) :=
  ⟨by simp [sampleMonitor], by simp [sampleMonitor],
   (fullPeersSlice_invariants sampleMonitor emptyEffects [7]
      (by simp [sampleMonitor])).1.2.2 (by simp [sampleMonitor])⟩

/-- Witness for C10 at a concrete storer content. -/
theorem loadHbmiFromStorer_timeStamp_witness :
    ∃ r, loadHbmiFromStorer sampleMonitor sampleResolver sampleDB 9 [7] = some r ∧
      (sampleDTO.IsActive = true → r.timeStamp = 9 ∧
        ((12 : Int) - 9 < sampleMonitor.maxDurationPeerUnresponsive →
          (ComputeActive r 12).isActive = true)) ∧
      (sampleDTO.IsActive = false → r.timeStamp = sampleDTO.TimeStamp) :=
  loadHbmiFromStorer_timeStamp sampleMonitor sampleResolver sampleDB 9 [7]
    sampleDTO 12 (by rfl)

/-- C8: in every reachable monitor state, a record exists for a public
key iff the key was in the initial role assignment, or a heartbeat from
it was applied, or it was found in persisted storage via the persisted
known-peers list; moreover no operation ever removes a record (both the
asynchronous heartbeat application and the aggregation pass preserve
every existing record). -/
theorem records_provenance (ptp : PeerTypeProvider) (db : StorerDB)
    (pubKeysMap : List (Nat × List PubKey)) (mdur : Duration) (g : Time)
    (w : World) (h : Reachable ptp db pubKeysMap mdur g w) :
    (∀ k, ((w.mon.lookup k).isSome = true ↔
      (k ∈ initialKeys pubKeysMap ∨ k ∈ w.hbReceived ∨ k ∈ storageKeys db))) ∧
    (∀ eff2 now hb k, (w.mon.lookup k).isSome = true →
      (((addHeartbeatMessageToMap w.mon eff2 ptp now hb).1).lookup k).isSome =
        true) ∧
    (∀ eff2 now k, (w.mon.lookup k).isSome = true →
      (((computeAllHeartbeatMessages w.mon eff2 now).1).lookup k).isSome =
        true) := by
  refine ⟨?_, ?_, ?_⟩
  · induction h with
    | init mh af now mon eff hok =>
      intro k
      have h1 := NewMonitor_lookup_isSome mdur pubKeysMap g mh db ptp af now
        mon eff hok k
      simpa using h1
    | heartbeat w hb now hr ih =>
      intro k
      rw [show (World.mk (addHeartbeatMessageToMap w.mon w.eff ptp now hb).1
        (addHeartbeatMessageToMap w.mon w.eff ptp now hb).2
        (w.hbReceived ++ [hb.Pubkey])).mon =
        (addHeartbeatMessageToMap w.mon w.eff ptp now hb).1 from rfl]
      rw [addHeartbeat_lookup_isSome, ih k]
      simp only [List.mem_append, List.mem_singleton]
      tauto
    | evaluate w now hr ih =>
      intro k
      rw [show (World.mk (computeAllHeartbeatMessages w.mon w.eff now).1
        (computeAllHeartbeatMessages w.mon w.eff now).2 w.hbReceived).mon =
        (computeAllHeartbeatMessages w.mon w.eff now).1 from rfl]
      rw [computeAll_lookup]
      rw [Option.isSome_map']
      exact ih k
  · intro eff2 now hb k hk
    exact (addHeartbeat_lookup_isSome w.mon eff2 ptp now hb k).2 (Or.inl hk)
  · intro eff2 now k hk
    rw [computeAll_lookup, Option.isSome_map']
    exact hk

/-- Witness for C8: a concrete reachable state — built over the sample
storer and the one-key role assignment — whose record set matches the
provenance sets, and whose record for the sample key survives a
heartbeat application. -/
theorem records_provenance_witness :
    (((witPair.1.lookup [7]).isSome = true) ↔
      ([7] ∈ initialKeys [(0, [[7]])] ∨ [7] ∈ ([] : List PubKey) ∨
        [7] ∈ storageKeys sampleDB)) ∧
    (((addHeartbeatMessageToMap witPair.1 emptyEffects sampleResolver 6
        sampleHeartbeat).1).lookup [7]).isSome = true :=
  have hr : Reachable sampleResolver sampleDB [(0, [[7]])] 10 0
      ⟨witPair.1, witPair.2, []⟩ :=
    Reachable.init decoderOk gateAccept 5 witPair.1 witPair.2 (by rfl)
  ⟨(records_provenance sampleResolver sampleDB [(0, [[7]])] 10 0
      ⟨witPair.1, witPair.2, []⟩ hr).1 [7],
   (records_provenance sampleResolver sampleDB [(0, [[7]])] 10 0
      ⟨witPair.1, witPair.2, []⟩ hr).2.1 emptyEffects 6 sampleHeartbeat [7]
      (by rfl)⟩

end heartbeat
